import Mathlib

/-
Verification of the CLI decorator core in `atools/_cli.py`.

The development shallowly embeds the two recursive engines of the module:
the structural type-coercion engine `_Decorator._set_t` and the
signature-to-parser compiler (`_Decorator._set_parameter`,
`_Decorator._set_entrypoint`, `_Decorator.__call__`) together with the
dispatch executor `_Decoration.run`.

Python runtime values that can arise from `ast.literal_eval` and from
coercion are embedded as the inductive `Value`; parameter annotations
(after `typing.get_origin`/`typing.get_args` decomposition) are embedded
as the inductive `Ty`.  Machine-level aspects that the code never relies
on (float arithmetic, hash order of sets) are embedded symbolically:
a float is carried as its literal text, and a Python set is carried as
its insertion-ordered list of (pairwise unequal) elements.
-/

/-- Reduction lemma for bind on a successful `Except`. -/
@[simp] theorem exceptBindOk {α β ε : Type} (a : α) (f : α → Except ε β) :
    (Except.ok a >>= f) = f a := rfl

/-- Reduction lemma for bind on a failed `Except`. -/
@[simp] theorem exceptBindErr {α β ε : Type} (e : ε) (f : α → Except ε β) :
    ((Except.error e : Except ε α) >>= f) = Except.error e := rfl

/-- Reduction lemma for map on a successful `Except`. -/
@[simp] theorem exceptMapOk {α β ε : Type} (a : α) (f : α → β) :
    (Except.ok a : Except ε α).map f = Except.ok (f a) := rfl

/-- Reduction lemma for map on a failed `Except`. -/
@[simp] theorem exceptMapErr {α β ε : Type} (e : ε) (f : α → β) :
    (Except.error e : Except ε α).map f = Except.error e := rfl

/-- A Python runtime value, as the coercion engine `_set_t` observes it via
`type(value)`: one of the four supported primitives, `None`, one of the five
supported containers, or an instance of a custom (opaque) class, tagged with
the class name and carrying the single constructor argument it was built
from.  A float is represented by its literal text (the code never computes
with floats, it only passes them through).  A `dict` is its insertion-ordered
key/value list; a `set`/`frozenset` is its element list. -/
inductive Value where
  | bool : Bool → Value
  | int : Int → Value
  | float : String → Value
  | str : String → Value
  | none : Value
  | dict : List (Value × Value) → Value
  | set : List Value → Value
  | frozenset : List Value → Value
  | list : List Value → Value
  | tuple : List Value → Value
  | custom : String → Value → Value

/-- A parameter annotation after the `typing.get_origin(t) or t` /
`typing.get_args(t)` decomposition performed by `_set_t`:
primitives, `None`, unions, the five parameterized containers
(`tuple[A, ...]` is `tupleVar`, `tuple[A0, ..., An]` is `tuple [A0, ..., An]`,
and the bare `tuple` annotation is `tuple []`, since `typing.get_args` yields
`()` for both), and opaque custom classes named by `custom`. -/
inductive Ty where
  | bool : Ty
  | int : Ty
  | float : Ty
  | str : Ty
  | none : Ty
  | union : List Ty → Ty
  | dict : Ty → Ty → Ty
  | frozenset : Ty → Ty
  | list : Ty → Ty
  | set : Ty → Ty
  | tupleVar : Ty → Ty
  | tuple : List Ty → Ty
  | custom : String → Ty

mutual

/-- Python `==` on embedded values: numeric cross-equality between `bool`
and `int` (`True == 1`), elementwise equality for `list`/`tuple` (which do
not compare equal to each other), order-insensitive equality for
`set`/`frozenset` (which do compare equal to each other), and key/value
equality for `dict`.  Floats compare by their literal text. -/
def pyEq (a b : Value) : Bool :=
  match a, b with
  | .bool x, .bool y => x == y
  | .bool x, .int n => (if x then (1 : Int) else 0) == n
  | .int n, .bool x => n == (if x then (1 : Int) else 0)
  | .int m, .int n => m == n
  | .float x, .float y => x == y
  | .str s, .str u => s == u
  | .none, .none => true
  | .list xs, .list ys => pyEqList xs ys
  | .tuple xs, .tuple ys => pyEqList xs ys
  | .dict ps, .dict qs => ps.length == qs.length && pyPairsSub ps qs
  | .set xs, .set ys => pySubset xs ys && pySubset ys xs
  | .set xs, .frozenset ys => pySubset xs ys && pySubset ys xs
  | .frozenset xs, .set ys => pySubset xs ys && pySubset ys xs
  | .frozenset xs, .frozenset ys => pySubset xs ys && pySubset ys xs
  | .custom n1 v1, .custom n2 v2 => n1 == n2 && pyEq v1 v2
  | _, _ => false
termination_by sizeOf a + sizeOf b

/-- Elementwise Python equality of two sequences of equal length. -/
def pyEqList (xs ys : List Value) : Bool :=
  match xs, ys with
  | [], [] => true
  | x :: xs, y :: ys => pyEq x y && pyEqList xs ys
  | _, _ => false
termination_by sizeOf xs + sizeOf ys

/-- Python `in`: membership of a value in a list up to `pyEq`. -/
def pyMemB (x : Value) (ys : List Value) : Bool :=
  match ys with
  | [] => false
  | y :: ys => pyEq x y || pyMemB x ys
termination_by sizeOf x + sizeOf ys

/-- Every element of the first list is `pyEq` to some element of the second. -/
def pySubset (xs ys : List Value) : Bool :=
  match xs with
  | [] => true
  | x :: xs => pyMemB x ys && pySubset xs ys
termination_by sizeOf xs + sizeOf ys

/-- A key/value pair occurs (up to `pyEq` on both components) in a pair list. -/
def pyPairMem (k w : Value) (qs : List (Value × Value)) : Bool :=
  match qs with
  | [] => false
  | (k2, w2) :: rest => (pyEq k k2 && pyEq w w2) || pyPairMem k w rest
termination_by sizeOf k + sizeOf w + sizeOf qs

/-- Every key/value pair of the first list occurs in the second. -/
def pyPairsSub (ps qs : List (Value × Value)) : Bool :=
  match ps with
  | [] => true
  | (k, w) :: rest => pyPairMem k w qs && pyPairsSub rest qs
termination_by sizeOf ps + sizeOf qs

end

/-- Inserting one element into a Python set under construction: a value
equal (by Python `==`) to an already present element is dropped, otherwise
it is appended. -/
def pySetInsert (acc : List Value) (x : Value) : List Value :=
  if acc.any (fun y => pyEq y x) then acc else acc ++ [x]

/-- The Python set built from a list of elements in iteration order
(models a set comprehension over those elements). -/
def pySetOfList (xs : List Value) : List Value :=
  List.foldl pySetInsert [] xs

/-- Inserting one key/value pair into a Python dict under construction:
an equal key keeps its position and gets its value overwritten, a fresh
key is appended. -/
def pyDictInsert (acc : List (Value × Value)) (k w : Value) : List (Value × Value) :=
  if acc.any (fun p => pyEq p.1 k) then
    acc.map (fun p => if pyEq p.1 k then (p.1, w) else p)
  else acc ++ [(k, w)]

/-- The Python dict built from a pair list in iteration order
(models a dict comprehension over those pairs). -/
def pyDictOfList (ps : List (Value × Value)) : List (Value × Value) :=
  List.foldl (fun acc p => pyDictInsert acc p.1 p.2) [] ps

/-- Python iteration (as used by the `*` splat in the fixed-tuple case of
`_set_t`): containers yield their elements, a string yields its characters,
and anything else raises `TypeError`. -/
def pyIter : Value → Except String (List Value)
  | .list xs => .ok xs
  | .tuple xs => .ok xs
  | .set xs => .ok xs
  | .frozenset xs => .ok xs
  | .str s => .ok (s.toList.map (fun c => .str (String.mk [c])))
  | _ => .error "TypeError: object is not iterable"

/-- Whether `type(value)` belongs to `_Decorator._types`, the union of
`_container_types` (dict, frozenset, list, set, tuple) and
`_primitive_types` (bool, float, int, str).  `NoneType` and custom classes
are not members. -/
def typeHeadInTypes : Value → Bool
  | .bool _ => true
  | .float _ => true
  | .int _ => true
  | .str _ => true
  | .dict _ => true
  | .set _ => true
  | .frozenset _ => true
  | .list _ => true
  | .tuple _ => true
  | .none => false
  | .custom _ _ => false

/-- Whether `typing.get_origin(t) or t` belongs to `_Decorator._types`.
`NoneType`, union types and custom classes are not members. -/
def tyHeadInTypes : Ty → Bool
  | .bool => true
  | .float => true
  | .int => true
  | .str => true
  | .dict _ _ => true
  | .frozenset _ => true
  | .list _ => true
  | .set _ => true
  | .tupleVar _ => true
  | .tuple _ => true
  | .none => false
  | .union _ => false
  | .custom _ => false

/-- Whether `type(value)` equals one union argument, the membership test
`V in As` of the union case of `_set_t`.  Equality of a runtime type with
an annotation argument holds only for bare (unparameterized) annotations,
so parameterized container arguments never match; the bare `tuple`
annotation (embedded as `Ty.tuple []`) is the one bare container form the
embedding can express, and no claim exercises container members of unions. -/
def bareMatches : Ty → Value → Bool
  | .bool, .bool _ => true
  | .int, .int _ => true
  | .float, .float _ => true
  | .str, .str _ => true
  | .none, .none => true
  | .custom n, .custom n2 _ => n == n2
  | _, _ => false

/-- The union membership guard `V in As` of `_set_t`. -/
def unionHas (as_ : List Ty) (v : Value) : Bool :=
  as_.any (fun a => bareMatches a v)

/-- Calling the target annotation as a one-argument constructor, the
`value: T = T(value)` line of the custom-type case of `_set_t`.  A custom
class wraps the value; `NoneType` and union types are not callable with one
argument, which Python reports as a `TypeError`. -/
def applyConstructor : Ty → Value → Except String Value
  | .custom n, v => .ok (.custom n v)
  | _, _ => .error "TypeError: target type is not callable with one argument"

/-- The tail of the `match` in `_set_t` once no primitive, union or
container case fired: the custom-type case
`case V, T, _ if V in cls._types and T not in cls._types` followed by the
catch-all `case _` that raises `RuntimeError`.  (The Python message
interpolates `t` and `value`; the embedding uses a fixed text.) -/
def fallbackCustom (v : Value) (t : Ty) : Except String Value :=
  if typeHeadInTypes v && !tyHeadInTypes t then applyConstructor t v
  else .error "RuntimeError: given t could not be enforced on value"

mutual

/-- The coercion engine `_Decorator._set_t` (lines 170-228 of
`atools/_cli.py`): a match on the pair `(type(value), get_origin(t) or t)`
together with `get_args(t)`.  The Python match is organized as one case per
`(runtime type, target head, argument shape)` pattern; the embedding groups
the same cases by target head, which preserves the case selection because
distinct target heads select disjoint Python cases and, within one target
head, the value patterns are matched in the original order. -/
def set_t (v : Value) (t : Ty) : Except String Value :=
  match t with
  | .bool => match v with
    | .bool b => .ok (.bool b)
    | _ => fallbackCustom v .bool
  | .float => match v with
    | .float x => .ok (.float x)
    | _ => fallbackCustom v .float
  | .int => match v with
    | .int n => .ok (.int n)
    | _ => fallbackCustom v .int
  | .str => match v with
    | .str s => .ok (.str s)
    | _ => fallbackCustom v .str
  | .none => match v with
    | .none => .ok .none
    | _ => fallbackCustom v .none
  | .union as_ =>
    if unionHas as_ v then .ok v else fallbackCustom v (.union as_)
  | .dict a0 a1 => match v with
    | .dict kvs => (set_t_pairs kvs a0 a1).map (fun ps => .dict (pyDictOfList ps))
    | _ => fallbackCustom v (.dict a0 a1)
  | .frozenset a => match v with
    | .set xs => (set_t_list xs a).map (fun ys => .frozenset (pySetOfList ys))
    | _ => fallbackCustom v (.frozenset a)
  | .list a => match v with
    | .list xs => (set_t_list xs a).map (fun ys => .list ys)
    | _ => fallbackCustom v (.list a)
  | .set a => match v with
    | .set xs => (set_t_list xs a).map (fun ys => .set (pySetOfList ys))
    | _ => fallbackCustom v (.set a)
  | .tupleVar a => match v with
    | .tuple xs => (set_t_list xs a).map (fun ys => .tuple ys)
    | _ => fallbackCustom v (.tupleVar a)
  | .tuple [] => match v with
    | .tuple _ => .ok (.tuple [])
    | _ => fallbackCustom v (.tuple [])
  | .tuple (a0 :: as_) => match v with
    | .tuple [] => .error "IndexError: tuple index out of range"
    | .tuple (x :: rest) => do
      let h ← set_t x a0
      let tl ← set_t (.tuple rest) (.tuple as_)
      let ts ← pyIter tl
      .ok (.tuple (h :: ts))
    | _ => fallbackCustom v (.tuple (a0 :: as_))
  | .custom n => fallbackCustom v (.custom n)
termination_by sizeOf v

/-- Left-to-right elementwise coercion of a sequence, as performed by the
list/set/frozenset/variadic-tuple comprehensions inside `_set_t`. -/
def set_t_list (xs : List Value) (a : Ty) : Except String (List Value) :=
  match xs with
  | [] => .ok []
  | x :: rest => do
    let y ← set_t x a
    let ys ← set_t_list rest a
    .ok (y :: ys)
termination_by sizeOf xs

/-- Left-to-right key/value coercion of a pair sequence, as performed by
the dict comprehension inside `_set_t`. -/
def set_t_pairs (kvs : List (Value × Value)) (a0 a1 : Ty) :
    Except String (List (Value × Value)) :=
  match kvs with
  | [] => .ok []
  | (k, w) :: rest => do
    let k2 ← set_t k a0
    let w2 ← set_t w a1
    let ps ← set_t_pairs rest a0 a1
    .ok ((k2, w2) :: ps)
termination_by sizeOf kvs

end

/-- A candidate set element is fresh with respect to the already inserted
elements: no previous element compares Python-equal to it. -/
def freshIn (seen : List Value) (x : Value) : Bool :=
  !(seen.any (fun y => pyEq y x))

/-- Auxiliary freshness scan: every element is fresh with respect to all
elements before it. -/
def pyFreshAux (seen : List Value) : List Value → Bool
  | [] => true
  | x :: xs => freshIn seen x && pyFreshAux (seen ++ [x]) xs

/-- The elements of the list are pairwise Python-unequal (the invariant of
any list that denotes a Python set, or the key list of a Python dict). -/
def pyFresh (xs : List Value) : Bool :=
  pyFreshAux [] xs

mutual

/-- A value structurally conforms to an annotation drawn from the
List/Dict/SetLike/Tuple grammar over the four primitives: the runtime type
matches the annotation head and all components conform recursively.
Set-like values additionally carry the Python-set representation invariant
that their listed elements are pairwise unequal, and dict values that their
keys are. -/
def conforms (v : Value) (t : Ty) : Bool :=
  match v, t with
  | .bool _, .bool => true
  | .int _, .int => true
  | .float _, .float => true
  | .str _, .str => true
  | .dict kvs, .dict a0 a1 => conformsPairs kvs a0 a1 && pyFresh (kvs.map Prod.fst)
  | .list xs, .list a => conformsList xs a
  | .set xs, .set a => conformsList xs a && pyFresh xs
  | .frozenset xs, .frozenset a => conformsList xs a && pyFresh xs
  | .tuple xs, .tupleVar a => conformsList xs a
  | .tuple xs, .tuple as_ => conformsTup xs as_
  | _, _ => false
termination_by sizeOf v

/-- Every listed element conforms to the element annotation. -/
def conformsList (xs : List Value) (a : Ty) : Bool :=
  match xs with
  | [] => true
  | x :: rest => conforms x a && conformsList rest a
termination_by sizeOf xs

/-- Every listed key and value conforms to the respective annotation. -/
def conformsPairs (kvs : List (Value × Value)) (a0 a1 : Ty) : Bool :=
  match kvs with
  | [] => true
  | (k, w) :: rest => conforms k a0 && conforms w a1 && conformsPairs rest a0 a1
termination_by sizeOf kvs

/-- Positional elementwise conformance of a tuple against a fixed-arity
tuple annotation, requiring equal lengths. -/
def conformsTup (xs : List Value) (as_ : List Ty) : Bool :=
  match xs, as_ with
  | [], [] => true
  | x :: xs, a :: as_ => conforms x a && conformsTup xs as_
  | _, _ => false
termination_by sizeOf xs

end

mutual

/-- The annotation contains no `frozenset` constructor at any depth. -/
def noFrozen : Ty → Bool
  | .frozenset _ => false
  | .dict a0 a1 => noFrozen a0 && noFrozen a1
  | .list a => noFrozen a
  | .set a => noFrozen a
  | .tupleVar a => noFrozen a
  | .tuple as_ => noFrozenList as_
  | .union as_ => noFrozenList as_
  | .bool => true
  | .int => true
  | .float => true
  | .str => true
  | .none => true
  | .custom _ => true

/-- No annotation in the list contains a `frozenset` constructor. -/
def noFrozenList : List Ty → Bool
  | [] => true
  | a :: as_ => noFrozen a && noFrozenList as_

end

/-- Scanning freshness from any seen-prefix: a fresh list folds through
`pySetInsert` by pure appending, reproducing the input order. -/
theorem foldl_pySetInsert_fresh :
    ∀ (xs acc : List Value), pyFreshAux acc xs = true →
      List.foldl pySetInsert acc xs = acc ++ xs := by
  intro xs
  induction xs with
  | nil => intro acc _; simp
  | cons x rest ih =>
    intro acc h
    simp only [pyFreshAux, Bool.and_eq_true] at h
    obtain ⟨h1, h2⟩ := h
    have hins : pySetInsert acc x = acc ++ [x] := by
      simp only [pySetInsert, freshIn, Bool.not_eq_true'] at h1 ⊢
      simp [h1]
    simp only [List.foldl_cons, hins]
    rw [ih (acc ++ [x]) h2]
    simp

/-- A list with pairwise unequal elements denotes itself as a Python set. -/
theorem pySetOfList_fresh (xs : List Value) (h : pyFresh xs = true) :
    pySetOfList xs = xs := by
  have := foldl_pySetInsert_fresh xs [] h
  simpa [pySetOfList] using this

/-- Scanning key freshness from any seen-prefix: a pair list with fresh keys
folds through `pyDictInsert` by pure appending. -/
theorem foldl_pyDictInsert_fresh :
    ∀ (ps acc : List (Value × Value)),
      pyFreshAux (acc.map Prod.fst) (ps.map Prod.fst) = true →
      List.foldl (fun acc p => pyDictInsert acc p.1 p.2) acc ps = acc ++ ps := by
  intro ps
  induction ps with
  | nil => intro acc _; simp
  | cons p rest ih =>
    intro acc h
    simp only [List.map_cons, pyFreshAux, Bool.and_eq_true] at h
    obtain ⟨h1, h2⟩ := h
    have hcond : acc.any (fun q => pyEq q.1 p.1) = false := by
      simp only [freshIn, Bool.not_eq_true'] at h1
      simpa [List.any_map, Function.comp] using h1
    have hins : pyDictInsert acc p.1 p.2 = acc ++ [p] := by
      simp only [pyDictInsert, hcond]
      simp
    simp only [List.foldl_cons, hins]
    have h2' : pyFreshAux ((acc ++ [p]).map Prod.fst) (rest.map Prod.fst) = true := by
      simpa using h2
    rw [ih (acc ++ [p]) h2']
    simp

/-- A pair list with pairwise unequal keys denotes itself as a Python dict. -/
theorem pyDictOfList_fresh (ps : List (Value × Value))
    (h : pyFresh (ps.map Prod.fst) = true) : pyDictOfList ps = ps := by
  have := foldl_pyDictInsert_fresh ps [] (by simpa [pyFresh] using h)
  simpa [pyDictOfList] using this

/-- Unpacking `conformsList` into elementwise conformance. -/
theorem conformsList_mem {xs : List Value} {a : Ty}
    (h : conformsList xs a = true) : ∀ x ∈ xs, conforms x a = true := by
  induction xs with
  | nil => intro x hx; cases hx
  | cons y rest ih =>
    rw [conformsList] at h
    simp only [Bool.and_eq_true] at h
    intro x hx
    rcases List.mem_cons.mp hx with h1 | h1
    · exact h1 ▸ h.1
    · exact ih h.2 x h1

/-- Unpacking `conformsPairs` into componentwise conformance. -/
theorem conformsPairs_mem {kvs : List (Value × Value)} {a0 a1 : Ty}
    (h : conformsPairs kvs a0 a1 = true) :
    ∀ p ∈ kvs, conforms p.1 a0 = true ∧ conforms p.2 a1 = true := by
  induction kvs with
  | nil => intro p hp; cases hp
  | cons q rest ih =>
    intro p hp
    obtain ⟨k, w⟩ := q
    rw [conformsPairs] at h
    simp only [Bool.and_eq_true] at h
    rcases List.mem_cons.mp hp with h1 | h1
    · subst h1; exact ⟨h.1.1, h.1.2⟩
    · exact ih h.2 p h1

/-- Coercion of a sequence whose elements each coerce to themselves is the
identity on the sequence. -/
theorem set_t_list_id {xs : List Value} {a : Ty}
    (h : ∀ x ∈ xs, set_t x a = .ok x) : set_t_list xs a = .ok xs := by
  induction xs with
  | nil => rw [set_t_list]
  | cons x rest ih =>
    rw [set_t_list]
    rw [h x (by simp)]
    rw [ih (fun y hy => h y (by simp [hy]))]
    rfl

/-- Coercion of a pair sequence whose components each coerce to themselves
is the identity on the sequence. -/
theorem set_t_pairs_id {kvs : List (Value × Value)} {a0 a1 : Ty}
    (h : ∀ p ∈ kvs, set_t p.1 a0 = .ok p.1 ∧ set_t p.2 a1 = .ok p.2) :
    set_t_pairs kvs a0 a1 = .ok kvs := by
  induction kvs with
  | nil => rw [set_t_pairs]
  | cons q rest ih =>
    obtain ⟨k, w⟩ := q
    rw [set_t_pairs]
    rw [(h (k, w) (by simp)).1]
    rw [(h (k, w) (by simp)).2]
    rw [ih (fun p hp => h p (by simp [hp]))]
    rfl

/-- Strong-induction core of the idempotence property: a value conforming
to a frozenset-free annotation is coerced to itself. -/
theorem set_t_conf_aux :
    ∀ (n : Nat) (v : Value) (t : Ty), sizeOf v ≤ n → conforms v t = true →
      noFrozen t = true → set_t v t = Except.ok v := by
  intro n
  induction n with
  | zero =>
    intro v t hle _ _
    exfalso
    cases v <;> simp at hle
  | succ n ih =>
    intro v t hle hc hf
    cases v with
    | bool b =>
      cases t <;> (try (rw [conforms.eq_def] at hc; simp at hc))
      all_goals rw [set_t.eq_def]
    | int m =>
      cases t <;> (try (rw [conforms.eq_def] at hc; simp at hc))
      all_goals rw [set_t.eq_def]
    | float x =>
      cases t <;> (try (rw [conforms.eq_def] at hc; simp at hc))
      all_goals rw [set_t.eq_def]
    | str s =>
      cases t <;> (try (rw [conforms.eq_def] at hc; simp at hc))
      all_goals rw [set_t.eq_def]
    | none =>
      cases t <;> (rw [conforms.eq_def] at hc; simp at hc)
    | custom cn cv =>
      cases t <;> (rw [conforms.eq_def] at hc; simp at hc)
    | dict kvs =>
      cases t <;> (try (rw [conforms.eq_def] at hc; simp at hc))
      case dict a0 a1 =>
        rw [noFrozen] at hf
        simp only [Bool.and_eq_true] at hf
        have hcomp := conformsPairs_mem hc.1
        have hsz : sizeOf kvs ≤ n := by
          have : sizeOf (Value.dict kvs) = 1 + sizeOf kvs := by simp
          omega
        have hok : ∀ p ∈ kvs, set_t p.1 a0 = .ok p.1 ∧ set_t p.2 a1 = .ok p.2 := by
          intro p hp
          have h1 := List.sizeOf_lt_of_mem hp
          have h2 : sizeOf p = 1 + sizeOf p.1 + sizeOf p.2 := by
            cases p
            simp
          exact ⟨ih p.1 a0 (by omega) (hcomp p hp).1 hf.1,
                 ih p.2 a1 (by omega) (hcomp p hp).2 hf.2⟩
        rw [set_t.eq_def]
        simp only [set_t_pairs_id hok, exceptMapOk]
        rw [pyDictOfList_fresh kvs hc.2]
    | list xs =>
      cases t <;> (try (rw [conforms.eq_def] at hc; simp at hc))
      case list a =>
        rw [noFrozen] at hf
        have hsz : sizeOf xs ≤ n := by
          have : sizeOf (Value.list xs) = 1 + sizeOf xs := by simp
          omega
        have hok : ∀ x ∈ xs, set_t x a = .ok x := by
          intro x hx
          have h1 := List.sizeOf_lt_of_mem hx
          exact ih x a (by omega) (conformsList_mem hc x hx) hf
        rw [set_t.eq_def]
        simp only [set_t_list_id hok, exceptMapOk]
    | set xs =>
      cases t <;> (try (rw [conforms.eq_def] at hc; simp at hc))
      case set a =>
        rw [noFrozen] at hf
        have hsz : sizeOf xs ≤ n := by
          have : sizeOf (Value.set xs) = 1 + sizeOf xs := by simp
          omega
        have hok : ∀ x ∈ xs, set_t x a = .ok x := by
          intro x hx
          have h1 := List.sizeOf_lt_of_mem hx
          exact ih x a (by omega) (conformsList_mem hc.1 x hx) hf
        rw [set_t.eq_def]
        simp only [set_t_list_id hok, exceptMapOk]
        rw [pySetOfList_fresh xs hc.2]
    | frozenset xs =>
      cases t <;> (try (rw [conforms.eq_def] at hc; simp at hc))
      case frozenset a =>
        exact absurd hf (by simp [noFrozen])
    | tuple xs =>
      cases t <;> (try (rw [conforms.eq_def] at hc; simp at hc))
      case tupleVar a =>
        rw [noFrozen] at hf
        have hsz : sizeOf xs ≤ n := by
          have : sizeOf (Value.tuple xs) = 1 + sizeOf xs := by simp
          omega
        have hok : ∀ x ∈ xs, set_t x a = .ok x := by
          intro x hx
          have h1 := List.sizeOf_lt_of_mem hx
          exact ih x a (by omega) (conformsList_mem hc x hx) hf
        rw [set_t.eq_def]
        simp only [set_t_list_id hok, exceptMapOk]
      case tuple as_ =>
        rw [noFrozen] at hf
        cases as_ with
        | nil =>
          cases xs with
          | nil => rw [set_t.eq_def]
          | cons x rest =>
            have hfalse : conformsTup (x :: rest) [] = false := by
              rw [conformsTup.eq_def]
            rw [hfalse] at hc
            cases hc
        | cons a0 as2 =>
          cases xs with
          | nil =>
            have hfalse : conformsTup [] (a0 :: as2) = false := by
              rw [conformsTup.eq_def]
            rw [hfalse] at hc
            cases hc
          | cons x rest =>
            rw [conformsTup] at hc
            simp only [Bool.and_eq_true] at hc
            rw [noFrozenList] at hf
            simp only [Bool.and_eq_true] at hf
            have hszx : sizeOf x ≤ n := by
              have : sizeOf (Value.tuple (x :: rest)) = 1 + (1 + sizeOf x + sizeOf rest) := by
                simp
              omega
            have hszr : sizeOf (Value.tuple rest) ≤ n := by
              have h1 : sizeOf (Value.tuple (x :: rest)) = 1 + (1 + sizeOf x + sizeOf rest) := by
                simp
              have h2 : sizeOf (Value.tuple rest) = 1 + sizeOf rest := by simp
              omega
            have h1 : set_t x a0 = .ok x := ih x a0 hszx hc.1 hf.1
            have h2 : set_t (.tuple rest) (.tuple as2) = .ok (.tuple rest) := by
              refine ih (.tuple rest) (.tuple as2) hszr ?_ ?_
              · rw [conforms.eq_def]
                exact hc.2
              · rw [noFrozen]
                exact hf.2
            rw [set_t.eq_def]
            simp only [h1, h2, exceptBindOk, pyIter]

/-- Claim C1, counterexample: a value of runtime type `frozenset` that
structurally conforms to a `frozenset[int]` target is not returned
unchanged by `_set_t`; the engine only matches mutable `set` values against
frozenset targets, so the conforming frozenset input raises `RuntimeError`.
This refutes the claimed idempotence on well-typed input for frozenset
values matched against a `frozenset[T]` target. -/
theorem cli_C1_counterexample :
    conforms (.frozenset [.int 1]) (.frozenset .int) = true ∧
    set_t (.frozenset [.int 1]) (.frozenset .int) =
      .error "RuntimeError: given t could not be enforced on value" := by
  constructor
  · rw [conforms.eq_def]
    simp [conformsList, conformsTup, pyFresh, pyFreshAux, freshIn, conforms]
  · rw [set_t.eq_def]
    simp [fallbackCustom, typeHeadInTypes, tyHeadInTypes]

/-- Claim C1, amended: for every finite nested combination of
List/Dict/mutable-set/Tuple over the primitives (bool, int, float, str) —
that is, every annotation of the claimed grammar that does not mention
`frozenset` — `_set_t` maps a structurally conforming value to itself, at
every depth (in particular up to depth 4).  For `frozenset` the claim
fails: a frozenset value against a `frozenset[T]` target raises
`RuntimeError` (see the counterexample). -/
theorem cli_C1_idempotent (v : Value) (t : Ty) (hc : conforms v t = true)
    (hf : noFrozen t = true) : set_t v t = Except.ok v :=
  set_t_conf_aux (sizeOf v) v t le_rfl hc hf

/-- Claim C1, witness: the amended idempotence theorem applied to a
concrete depth-4 well-typed value (a dict of str to list of pairs of int
and set of bool). -/
theorem cli_C1_witness :
    set_t (.dict [(.str "k", .list [.tuple [.int 1, .set [.bool true, .bool false]]])])
        (.dict .str (.list (.tuple [.int, .set .bool]))) =
      Except.ok
        (.dict [(.str "k", .list [.tuple [.int 1, .set [.bool true, .bool false]]])]) :=
  cli_C1_idempotent _ _
    (by
      rw [conforms.eq_def]
      simp [conformsPairs, conformsList, conformsTup, conforms, pyFresh,
        pyFreshAux, freshIn, pyEq, pyMemB])
    (by rfl)

/-- Claim C9: coercing any tuple value against the bare unparameterized
`tuple` annotation (empty type-argument list) returns the empty tuple,
whatever the input's length and elements: the inputs are discarded, not
rejected. -/
theorem cli_C9_bare_tuple (xs : List Value) :
    set_t (.tuple xs) (.tuple []) = .ok (.tuple []) := by
  rw [set_t.eq_def]

/-- Claim C4, counterexample: a tuple longer than the fixed-arity target is
not a coercion failure; `_set_t` silently truncates it at the empty-args
base case.  A length-3 tuple against `tuple[int, int]` succeeds and returns
a value that is not equal to the input. -/
theorem cli_C4_counterexample :
    set_t (.tuple [.int 1, .int 2, .int 3]) (.tuple [.int, .int]) =
      .ok (.tuple [.int 1, .int 2]) ∧
    Value.tuple [.int 1, .int 2] ≠ Value.tuple [.int 1, .int 2, .int 3] := by
  constructor
  · simp [set_t, pyIter]
  · simp

/-- Positional pairing of a tuple's elements with a fixed-arity target's
arguments, coercing each pair; the `List.zip` truncates at the shorter
side.  Used to state the corrected fixed-tuple behaviour. -/
def coerceZip (xs : List Value) (as_ : List Ty) : Except String (List Value) :=
  (xs.zip as_).mapM (fun p => set_t p.1 p.2)

/-- Claim C4, amended: coercion against `FixedTuple(T0..Tn)` is positional
elementwise recursion over the zipped prefix; the base case
`FixedTuple()` yields an empty tuple on any input, so extra input elements
beyond the arity are silently discarded (no failure).  Only an input
shorter than the arity fails, with `IndexError`, after the paired prefix
has been coerced. -/
theorem cli_C4_amended (as_ : List Ty) (xs : List Value) :
    (as_.length ≤ xs.length →
      set_t (.tuple xs) (.tuple as_) = (coerceZip xs as_).map Value.tuple) ∧
    (xs.length < as_.length →
      set_t (.tuple xs) (.tuple as_) =
        coerceZip xs as_ >>= fun _ =>
          .error "IndexError: tuple index out of range") := by
  induction as_ generalizing xs with
  | nil =>
    constructor
    · intro _
      rw [set_t.eq_def]
      simp only [coerceZip, List.zip_nil_right]
      rfl
    · intro h
      simp at h
  | cons a0 as2 ih =>
    cases xs with
    | nil =>
      constructor
      · intro h
        simp at h
      · intro _
        rw [set_t.eq_def]
        simp only [coerceZip, List.zip_nil_left]
        rfl
    | cons x rest =>
      constructor
      · intro h
        have h2 : as2.length ≤ rest.length := by
          simp at h
          omega
        have ihr := (ih rest).1 h2
        rw [set_t.eq_def]
        simp only [coerceZip, List.zip_cons_cons, List.mapM_cons]
        cases hx : set_t x a0 with
        | error e => simp
        | ok y =>
          simp only [exceptBindOk, ihr, coerceZip]
          cases hz : (rest.zip as2).mapM (fun p => set_t p.1 p.2) with
          | error e => simp
          | ok ys => simp [pyIter, pure, Except.pure]
      · intro h
        have h2 : rest.length < as2.length := by
          simp at h
          omega
        have ihr := (ih rest).2 h2
        rw [set_t.eq_def]
        simp only [coerceZip, List.zip_cons_cons, List.mapM_cons]
        cases hx : set_t x a0 with
        | error e => simp
        | ok y =>
          simp only [exceptBindOk, ihr, coerceZip]
          cases hz : (rest.zip as2).mapM (fun p => set_t p.1 p.2) with
          | error e => simp
          | ok ys => simp [pure, Except.pure]

/-- Claim C4, witness: the amended characterization evaluated at concrete
inputs, one longer than the arity (truncated) and one shorter (failing
with IndexError after the paired prefix). -/
theorem cli_C4_witness :
    set_t (.tuple [.int 1, .int 2, .int 3]) (.tuple [.int, .int]) =
      (coerceZip [.int 1, .int 2, .int 3] [.int, .int]).map Value.tuple ∧
    set_t (.tuple [.int 1]) (.tuple [.int, .int]) =
      coerceZip [.int 1] [.int, .int] >>= fun _ =>
        .error "IndexError: tuple index out of range" :=
  ⟨(cli_C4_amended [.int, .int] [.int 1, .int 2, .int 3]).1 (by decide),
   (cli_C4_amended [.int, .int] [.int 1]).2 (by decide)⟩

mutual

/-- Python `repr` of an embedded value, used for elements shown inside
container text.  Strings are quoted, containers print their elements
recursively, a custom instance prints as a generic object. -/
def pyReprV : Value → String
  | .bool b => if b then "True" else "False"
  | .int n => toString n
  | .float s => s
  | .str s => "\x27" ++ s ++ "\x27"
  | .none => "None"
  | .list xs => "[" ++ pyReprList xs ++ "]"
  | .tuple [x] => "(" ++ pyReprV x ++ ",)"
  | .tuple xs => "(" ++ pyReprList xs ++ ")"
  | .set [] => "set()"
  | .set xs => "\x7b" ++ pyReprList xs ++ "\x7d"
  | .frozenset [] => "frozenset()"
  | .frozenset xs => "frozenset(\x7b" ++ pyReprList xs ++ "\x7d)"
  | .dict ps => "\x7b" ++ pyReprPairs ps ++ "\x7d"
  | .custom n _ => "<" ++ n ++ " object>"

/-- Comma-joined reprs of a sequence of values. -/
def pyReprList : List Value → String
  | [] => ""
  | [x] => pyReprV x
  | x :: rest => pyReprV x ++ ", " ++ pyReprList rest

/-- Comma-joined `key: value` reprs of a pair sequence. -/
def pyReprPairs : List (Value × Value) → String
  | [] => ""
  | [(k, w)] => pyReprV k ++ ": " ++ pyReprV w
  | (k, w) :: rest => pyReprV k ++ ": " ++ pyReprV w ++ ", " ++ pyReprPairs rest

end

/-- Python `str` of an embedded value, the conversion used by the f-string
`Default: ...` in `_set_parameter`: like `repr` except that a top-level
string prints verbatim. -/
def pyStr (v : Value) : String :=
  match v with
  | .str s => s
  | v => pyReprV v

/-- The `inspect.Parameter.kind` values the decorator distinguishes. -/
inductive Kind where
  | posOnly : Kind
  | posOrKw : Kind
  | kwOnly : Kind
  | varPos : Kind
  | varKw : Kind
deriving DecidableEq

/-- A parameter annotation as `_set_parameter` sees it: absent
(`inspect.Parameter.empty`), a plain type, or `typing.Annotated` wrapping a
type together with a metadata string. -/
inductive Annot where
  | empty : Annot
  | plain : Ty → Annot
  | annotated : Ty → String → Annot

/-- One entry of `inspect.signature(entrypoint).parameters`: declared name,
kind, default (`Option.none` embeds `inspect.Parameter.empty`), and
annotation. -/
structure Parameter where
  name : String
  kind : Kind
  dflt : Option Value
  annot : Annot

/-- The argparse action produced by one `parser.add_argument` call in
`_set_parameter`, with the attributes the code sets on it: the
name-or-flag string, `required`, `default`, whether `nargs` was set to
`argparse.OPTIONAL`, the help text, and the annotation captured by the
`flag.type` converter lambda. -/
structure CliFlag where
  flagName : String
  required : Bool
  dflt : Option Value
  nargsOpt : Bool
  help : String
  convAnnot : Annot

/-- The `parameter.name.replace` call turning underscores into hyphens in
flag names (for the single-character pattern this is a per-character map). -/
def hyphenate (s : String) : String :=
  String.mk (s.toList.map (fun c => if c = '_' then '-' else c))

/-- Whether an `add_argument` name string denotes an optional (flag-style)
argument: argparse treats a name whose first character is the prefix
character `-` as an option, anything else as a positional. -/
def isOptionName (s : String) : Bool :=
  match s.toList with
  | c :: _ => c = '-'
  | [] => false

/-- Python `' '.join` on a list of fragments. -/
def joinSp : List String → String
  | [] => ""
  | [x] => x
  | x :: rest => x ++ " " ++ joinSp rest

/-- The parser-surface compiler `_Decorator._set_parameter` (lines 230-259):
kind match choosing positional name or `--flag`, `Annotated` unwrapping,
required/default/nargs assignment, help assembly, and converter
installation.  The initial `required` value is the argparse creation
default, true for positionals and false for optionals; the code overwrites
it with `True` exactly when the parameter has no default. -/
def setParameter (p : Parameter) : Except String CliFlag := do
  let name0 ←
    match p.kind with
    | .posOnly => Except.ok p.name
    | .posOrKw =>
      if p.dflt.isNone then Except.ok p.name
      else Except.ok ("--" ++ hyphenate p.name)
    | .kwOnly => Except.ok ("--" ++ hyphenate p.name)
    | _ => Except.error "RuntimeError: parameter has unsupported kind"
  let (t, parts0) :=
    match p.annot with
    | .annotated t0 md => (Annot.plain t0, [md])
    | a => (a, ([] : List String))
  let (req, d, nOpt, parts) :=
    match p.dflt with
    | Option.none => (true, (Option.none : Option Value), false, parts0)
    | Option.some d0 =>
      (!(isOptionName name0), Option.some d0, true,
        parts0 ++ ["Default: " ++ pyStr d0])
  Except.ok
    { flagName := name0, required := req, dflt := d, nargsOpt := nOpt,
      help := joinSp parts, convAnnot := t }

/-- Claim C3: for `f(a, /, b, c=1, *, d, e=2.0)` the generated surface is
exactly two required positionals `a` and `b`, an optional flag `--c` with
stored default `1` and help `Default: 1`, a required flag `--d`, and an
optional flag `--e` with stored default `2.0` and help `Default: 2.0`;
moreover every parameter with a default gets `Default: <value>` appended to
its help text, and every flag-form name has its underscores replaced by
hyphens. -/
theorem cli_C3 :
    ([⟨"a", .posOnly, Option.none, .empty⟩,
      ⟨"b", .posOrKw, Option.none, .empty⟩,
      ⟨"c", .posOrKw, Option.some (.int 1), .empty⟩,
      ⟨"d", .kwOnly, Option.none, .empty⟩,
      ⟨"e", .kwOnly, Option.some (.float "2.0"), .empty⟩].mapM setParameter =
      Except.ok
        [⟨"a", true, Option.none, false, "", .empty⟩,
         ⟨"b", true, Option.none, false, "", .empty⟩,
         ⟨"--c", false, Option.some (.int 1), true, "Default: 1", .empty⟩,
         ⟨"--d", true, Option.none, false, "", .empty⟩,
         ⟨"--e", false, Option.some (.float "2.0"), true, "Default: 2.0", .empty⟩]) ∧
    (∀ (p : Parameter) (d0 : Value) (fl : CliFlag), p.dflt = Option.some d0 →
      setParameter p = .ok fl →
      ∃ pre, fl.help = pre ++ "Default: " ++ pyStr d0) ∧
    (∀ (p : Parameter) (fl : CliFlag),
      (p.kind = .kwOnly ∨ (p.kind = .posOrKw ∧ p.dflt.isSome)) →
      setParameter p = .ok fl → fl.flagName = "--" ++ hyphenate p.name) := by
  refine ⟨by rfl, ?_, ?_⟩
  · intro p d0 fl hd hok
    cases p with
    | mk nm k dn an =>
      subst hd
      cases k <;>
        simp only [setParameter, Except.bind, exceptBindOk, Option.isNone_some] at hok
      all_goals
        cases an <;>
          simp only [] at hok <;>
          cases hok <;>
          first
          | exact ⟨"", rfl⟩
          | (rename_i t0 md
             refine ⟨md ++ " ", by simp only [joinSp, String.append_assoc]⟩)
  · intro p fl hk hok
    cases p with
    | mk nm k dn an =>
      rcases hk with hk | hk
      · subst hk
        cases dn <;> cases an <;>
          simp only [setParameter, Except.bind, exceptBindOk] at hok <;>
          cases hok <;> rfl
      · obtain ⟨hk1, hk2⟩ := hk
        subst hk1
        cases dn with
        | none => simp at hk2
        | some d0 =>
          cases an <;>
            simp only [setParameter, Except.bind, exceptBindOk, Option.isNone_some] at hok <;>
            cases hok <;> rfl

/-- Claim C3, witness: the help-append and hyphenation clauses instantiated
at a concrete keyword-only parameter with an underscore in its name and a
default of `3`. -/
theorem cli_C3_witness :
    setParameter ⟨"foo_bar", .kwOnly, Option.some (.int 3), .empty⟩ =
      .ok ⟨"--foo-bar", false, Option.some (.int 3), true, "Default: 3", .empty⟩ ∧
    (∃ pre, ("Default: 3" : String) = pre ++ "Default: " ++ pyStr (.int 3)) ∧
    ("--foo-bar" : String) = "--" ++ hyphenate "foo_bar" := by
  refine ⟨rfl, ?_, ?_⟩
  · exact cli_C3.2.1 ⟨"foo_bar", .kwOnly, Option.some (.int 3), .empty⟩ (.int 3)
      ⟨"--foo-bar", false, Option.some (.int 3), true, "Default: 3", .empty⟩ rfl rfl
  · exact cli_C3.2.2 ⟨"foo_bar", .kwOnly, Option.some (.int 3), .empty⟩
      ⟨"--foo-bar", false, Option.some (.int 3), true, "Default: 3", .empty⟩
      (Or.inl rfl) rfl

/-- Python `or` on documentation strings (`entrypoint.__doc__ or
module.__doc__`): an absent or empty docstring is falsy and selects the
right operand. -/
def pyOrDoc (a b : Option String) : Option String :=
  match a with
  | Option.some s => if s = "" then b else Option.some s
  | Option.none => b

/-- A Python function object as the decorator and executor observe it:
name, docstring, signature parameters, whether it is a coroutine function,
and its call behaviour, mapping positional arguments and keyword arguments
to the value it produces (the eventual result for a coroutine function). -/
structure FuncObj where
  name : String
  doc : Option String
  params : List Parameter
  isCoro : Bool
  impl : List Value → List (String × Value) → Value

/-- The `parser.print_help` bound method that `set_defaults` installs as
the fallback entrypoint: its signature is `(file=None)`, a single
positional-or-keyword parameter with default `None` and no annotation; it
prints the node's help and returns `None`. -/
def printHelpFn : FuncObj :=
  { name := "print_help", doc := Option.none,
    params := [⟨"file", .posOrKw, Option.some Value.none, .empty⟩],
    isCoro := false, impl := fun _ _ => Value.none }

/-- Dictionary lookup in the parsed-arguments mapping
(`parsed_args[parameter.name]`); `Option.none` is a `KeyError`. -/
def lookupArg (parsed : List (String × Value)) (nm : String) : Option Value :=
  (parsed.find? (fun p => p.1 == nm)).map Prod.snd

/-- The argument-partition loop of `_Decoration.run` (lines 88-93): walk
the resolved entrypoint's parameters in declaration order, appending
positional-only values to the positional list and all others to the
keyword mapping; a parameter name absent from the parsed mapping raises
`KeyError`. -/
def collectArgs (params : List Parameter) (parsed : List (String × Value)) :
    Except String (List Value × List (String × Value)) :=
  match params with
  | [] => .ok ([], [])
  | p :: rest =>
    match lookupArg parsed p.name with
    | Option.none => .error ("KeyError: " ++ p.name)
    | Option.some v => do
      let (args, kwargs) ← collectArgs rest parsed
      match p.kind with
      | .posOnly => .ok (v :: args, kwargs)
      | _ => .ok (args, (p.name, v) :: kwargs)

/-- The positional argument list the executor is claimed to build: the
values of exactly the positional-only parameters, in declaration order. -/
def positionalOf (params : List Parameter) (parsed : List (String × Value)) :
    List Value :=
  (params.filter (fun p => p.kind == Kind.posOnly)).map
    (fun p => (lookupArg parsed p.name).getD Value.none)

/-- The keyword argument mapping the executor is claimed to build: the
name/value pairs of all non-positional-only parameters, in declaration
order. -/
def keywordOf (params : List Parameter) (parsed : List (String × Value)) :
    List (String × Value) :=
  (params.filter (fun p => !(p.kind == Kind.posOnly))).map
    (fun p => (p.name, (lookupArg parsed p.name).getD Value.none))

/-- Calling a function object: a coroutine function returns a coroutine
object wrapping the eventual result; a plain function returns the result
directly. -/
def callFunc (f : FuncObj) (args : List Value) (kwargs : List (String × Value)) :
    Value :=
  if f.isCoro then .custom "coroutine" (f.impl args kwargs)
  else f.impl args kwargs

/-- Modelled from the spec: the external run-loop service `asyncio.run`,
which drives a coroutine object to completion and returns its result
synchronously, and rejects a non-coroutine argument. -/
def asyncioRun : Value → Except String Value
  | .custom "coroutine" v => .ok v
  | _ => .error "ValueError: a coroutine was expected"

/-- The observable outcome of one `run` dispatch: the list of entrypoint
invocations performed (each with its positional and keyword arguments) and
the returned result or raised error. -/
structure RunOutcome where
  calls : List (List Value × List (String × Value))
  result : Except String Value

/-- The post-parse phase of `_Decoration.run` (lines 87-99): partition the
parsed mapping by the resolved entrypoint's parameter kinds, invoke the
entrypoint once, and pass a coroutine result through `asyncio.run`. -/
def dispatch (resolved : FuncObj) (parsed : List (String × Value)) : RunOutcome :=
  match collectArgs resolved.params parsed with
  | .error e => { calls := [], result := .error e }
  | .ok (args, kwargs) =>
    let r0 := callFunc resolved args kwargs
    if resolved.isCoro then
      { calls := [(args, kwargs)], result := asyncioRun r0 }
    else
      { calls := [(args, kwargs)], result := .ok r0 }

/-- When every parameter name is present in the parsed mapping, the
partition loop produces exactly the positional-only values (in declaration
order) and the keyword pairs of all other parameters. -/
theorem collectArgs_eq (params : List Parameter) (parsed : List (String × Value))
    (h : ∀ p ∈ params, (lookupArg parsed p.name).isSome = true) :
    collectArgs params parsed =
      .ok (positionalOf params parsed, keywordOf params parsed) := by
  induction params with
  | nil => rfl
  | cons p rest ih =>
    have hp := h p (by simp)
    have hrest := ih (fun q hq => h q (by simp [hq]))
    rw [collectArgs]
    cases hl : lookupArg parsed p.name with
    | none => rw [hl] at hp; simp at hp
    | some v =>
      rw [hrest]
      simp only [exceptBindOk]
      cases hk : p.kind <;>
        simp [positionalOf, keywordOf, hk, hl, List.filter_cons]

/-- Claim C6: for every resolved entrypoint whose parameter names are all
present in the parsed mapping, `run` partitions the mapping into the
positional-only values in declaration order and keyword pairs for all
other parameters, invokes the entrypoint exactly once with them, and
returns the entrypoint's result synchronously — through the run loop when
the entrypoint is a coroutine function, directly otherwise. -/
theorem cli_C6 (f : FuncObj) (parsed : List (String × Value))
    (h : ∀ p ∈ f.params, (lookupArg parsed p.name).isSome = true) :
    dispatch f parsed =
      { calls := [(positionalOf f.params parsed, keywordOf f.params parsed)],
        result := .ok (f.impl (positionalOf f.params parsed)
                              (keywordOf f.params parsed)) } := by
  rw [dispatch, collectArgs_eq f.params parsed h]
  cases hco : f.isCoro <;> simp [callFunc, asyncioRun, hco]

/-- Claim C6, witness: a concrete asynchronous entrypoint with one
positional-only and one keyword-only parameter is invoked exactly once
with the partitioned arguments, and its eventual result is returned
synchronously. -/
theorem cli_C6_witness :
    dispatch
      { name := "entrypoint", doc := Option.none,
        params := [⟨"a", .posOnly, Option.none, .empty⟩,
                   ⟨"b", .kwOnly, Option.none, .empty⟩],
        isCoro := true,
        impl := fun args kwargs => .tuple (args ++ kwargs.map Prod.snd) }
      [("entrypoint", Value.none), ("a", .int 1), ("b", .str "x")] =
      { calls := [([.int 1], [("b", .str "x")])],
        result := .ok (.tuple [.int 1, .str "x"]) } :=
  cli_C6
    { name := "entrypoint", doc := Option.none,
      params := [⟨"a", .posOnly, Option.none, .empty⟩,
                 ⟨"b", .kwOnly, Option.none, .empty⟩],
      isCoro := true,
      impl := fun args kwargs => .tuple (args ++ kwargs.map Prod.snd) }
    [("entrypoint", Value.none), ("a", .int 1), ("b", .str "x")]
    (by decide)

/-- Claim C7: when the resolved entrypoint is the help-printing fallback
`parser.print_help`, `run` does not print help and return its result;
the partition loop looks up `parsed_args` at print_help's `file` parameter,
which the parser never stores, so `run` raises `KeyError` before any
invocation (the fallback is never called). -/
theorem cli_C7_bug :
    dispatch printHelpFn [("entrypoint", Value.none)] =
      { calls := [], result := .error "KeyError: file" } := rfl

/-- The argparse parser state the decorator builds for one node: the
description passed at construction, the registered positional and optional
arguments, and the `entrypoint` value installed by `set_defaults`. -/
structure ArgParser where
  description : Option String
  posArgs : List CliFlag
  optArgs : List CliFlag
  entryFn : FuncObj

/-- Registering one built argument on the parser: argparse stores an
option-style name among the optionals and anything else among the
positionals. -/
def addArg (P : ArgParser) (fl : CliFlag) : ArgParser :=
  if isOptionName fl.flagName then { P with optArgs := P.optArgs ++ [fl] }
  else { P with posArgs := P.posArgs ++ [fl] }

/-- The parameter loop of `_set_entrypoint`: process parameters in
declaration order through `_set_parameter`; on the first unsupported kind
the `RuntimeError` aborts the loop, leaving the parser in the state reached
so far (returned alongside the error, since the parser object is mutated in
place). -/
def addParams (P : ArgParser) : List Parameter → ArgParser × Option String
  | [] => (P, Option.none)
  | p :: rest =>
    match setParameter p with
    | .ok fl => addParams (addArg P fl) rest
    | .error e => (P, Option.some e)

/-- `_Decorator._set_entrypoint` (lines 261-267): install the entrypoint
via `set_defaults`, then register a flag for each of its parameters. -/
def setEntrypointP (P : ArgParser) (f : FuncObj) : ArgParser × Option String :=
  addParams { P with entryFn := f } f.params

/-- The observable outcome of `_Decorator.__call__` on a plain (single
module, `submodules=False`) entrypoint: the parser held by the `.cli`
decoration attached to the function object (the attachment happens before
parameter validation, and the decoration aliases the parser object, so its
state is the one reached when `__call__` ends), and the build result — the
returned decorated function together with its parser, or the raised
`RuntimeError`. -/
structure DecorOutcome where
  cliParser : Option ArgParser
  buildResult : Except String (FuncObj × ArgParser)

/-- `_Decorator.__call__` (lines 269-302) on the `submodules=False` path:
build the parser with `description=entrypoint.__doc__ or module.__doc__`,
install the `print_help` fallback, attach `entrypoint.cli` (line 275,
before any parameter validation), then process the single stack entry by
binding the entrypoint and registering its parameters; a `RuntimeError`
from an unsupported parameter kind propagates, so no decorated function is
returned, but the attached decoration (and the partially populated parser
it aliases) remains. -/
def decoratorCall (f : FuncObj) (moduleDoc : Option String) : DecorOutcome :=
  let P0 : ArgParser :=
    { description := pyOrDoc f.doc moduleDoc, posArgs := [], optArgs := [],
      entryFn := printHelpFn }
  match setEntrypointP P0 f with
  | (P, Option.none) => { cliParser := Option.some P, buildResult := .ok (f, P) }
  | (P, Option.some e) => { cliParser := Option.some P, buildResult := .error e }

/-- `_set_parameter` succeeds on every non-variadic parameter kind. -/
theorem setParameter_ok (p : Parameter) (h1 : p.kind ≠ .varPos)
    (h2 : p.kind ≠ .varKw) : ∃ fl, setParameter p = .ok fl := by
  obtain ⟨nm, k, dn, an⟩ := p
  cases k <;> simp at h1 h2 <;> cases dn <;> cases an <;>
    exact ⟨_, rfl⟩

/-- The parameter loop reports an error whenever some parameter has a
variadic kind. -/
theorem addParams_error (params : List Parameter)
    (h : ∃ p ∈ params, p.kind = .varPos ∨ p.kind = .varKw) :
    ∀ P : ArgParser, ∃ P' e, addParams P params = (P', Option.some e) := by
  induction params with
  | nil => obtain ⟨p, hp, _⟩ := h; cases hp
  | cons q rest ih =>
    intro P
    by_cases hq : q.kind = .varPos ∨ q.kind = .varKw
    · have herr : setParameter q = .error "RuntimeError: parameter has unsupported kind" := by
        obtain ⟨nm, k, dn, an⟩ := q
        rcases hq with hq | hq <;> simp at hq <;> subst hq <;> rfl
      exact ⟨P, _, by rw [addParams, herr]⟩
    · push_neg at hq
      obtain ⟨fl, hfl⟩ := setParameter_ok q hq.1 hq.2
      obtain ⟨p, hp, hpk⟩ := h
      rcases List.mem_cons.mp hp with h1 | h1
      · exact absurd (h1 ▸ hpk) (by subst h1; tauto)
      · obtain ⟨P', e, hPe⟩ := ih ⟨p, h1, hpk⟩ (addArg P fl)
        refine ⟨P', e, ?_⟩
        rw [addParams, hfl]
        exact hPe

/-- The parameter loop succeeds whenever no parameter has a variadic kind. -/
theorem addParams_ok (params : List Parameter)
    (h : ∀ p ∈ params, p.kind ≠ .varPos ∧ p.kind ≠ .varKw) :
    ∀ P : ArgParser, ∃ P', addParams P params = (P', Option.none) := by
  induction params with
  | nil => exact fun P => ⟨P, rfl⟩
  | cons q rest ih =>
    intro P
    obtain ⟨fl, hfl⟩ := setParameter_ok q (h q (by simp)).1 (h q (by simp)).2
    obtain ⟨P', hP'⟩ := ih (fun p hp => h p (by simp [hp])) (addArg P fl)
    refine ⟨P', ?_⟩
    rw [addParams, hfl]
    exact hP'

/-- Claim C5, counterexample: decorating
`entrypoint(a, /, *args)` raises the build-time `RuntimeError`, but the
`.cli` decoration has already been attached (line 275 precedes parameter
validation), and the parser it aliases is already partially populated: it
holds the registered positional `a` and dispatches to the entrypoint.  A
degraded CLI decoration therefore does remain on the function object,
contradicting the claim that no usable `.cli` decoration results. -/
theorem cli_C5_counterexample :
    (decoratorCall
        { name := "entrypoint", doc := Option.none,
          params := [⟨"a", .posOnly, Option.none, .empty⟩,
                     ⟨"args", .varPos, Option.none, .empty⟩],
          isCoro := false, impl := fun _ _ => Value.none }
        Option.none) =
      { cliParser := Option.some
          { description := Option.none,
            posArgs := [⟨"a", true, Option.none, false, "", .empty⟩],
            optArgs := [],
            entryFn :=
              { name := "entrypoint", doc := Option.none,
                params := [⟨"a", .posOnly, Option.none, .empty⟩,
                           ⟨"args", .varPos, Option.none, .empty⟩],
                isCoro := false, impl := fun _ _ => Value.none } },
        buildResult := .error "RuntimeError: parameter has unsupported kind" } := rfl

/-- Claim C5, amended: a signature declaring a variadic positional or
variadic keyword parameter always makes the build raise `RuntimeError`, so
`__call__` returns no decorated function; however the construction is not
aborted entirely without trace — the `.cli` decoration is attached to the
function object before parameter validation, so a (partially built)
decoration remains despite the failure. -/
theorem cli_C5_amended (f : FuncObj) (moduleDoc : Option String)
    (h : ∃ p ∈ f.params, p.kind = .varPos ∨ p.kind = .varKw) :
    (∃ e, (decoratorCall f moduleDoc).buildResult = .error e) ∧
    (∃ P, (decoratorCall f moduleDoc).cliParser = Option.some P) := by
  obtain ⟨P', e, hPe⟩ := addParams_error f.params h
    { description := pyOrDoc f.doc moduleDoc, posArgs := [], optArgs := [],
      entryFn := f }
  constructor
  · exact ⟨e, by rw [decoratorCall]; simp only [setEntrypointP]; rw [hPe]⟩
  · exact ⟨P', by rw [decoratorCall]; simp only [setEntrypointP]; rw [hPe]⟩

/-- Claim C5, witness: the amended statement applied to the concrete
signature `entrypoint(a, /, *args)`. -/
theorem cli_C5_witness :
    (∃ e, (decoratorCall
        { name := "entrypoint", doc := Option.none,
          params := [⟨"a", .posOnly, Option.none, .empty⟩,
                     ⟨"args", .varPos, Option.none, .empty⟩],
          isCoro := false, impl := fun _ _ => Value.none }
        Option.none).buildResult = .error e) ∧
    (∃ P, (decoratorCall
        { name := "entrypoint", doc := Option.none,
          params := [⟨"a", .posOnly, Option.none, .empty⟩,
                     ⟨"args", .varPos, Option.none, .empty⟩],
          isCoro := false, impl := fun _ _ => Value.none }
        Option.none).cliParser = Option.some P) :=
  cli_C5_amended _ _ ⟨⟨"args", .varPos, Option.none, .empty⟩, by simp, Or.inl rfl⟩

/-- Claim C10: on every supported signature the decorator returns the very
same function object it was given — not a wrapper — together with the
attached decoration; the function's name, docstring, parameters, coroutine
status and call behaviour are all unchanged, so calling the decorated
function directly behaves exactly like the undecorated original. -/
theorem cli_C10 (f : FuncObj) (moduleDoc : Option String)
    (h : ∀ p ∈ f.params, p.kind ≠ .varPos ∧ p.kind ≠ .varKw) :
    ∃ P, decoratorCall f moduleDoc =
      { cliParser := Option.some P, buildResult := .ok (f, P) } := by
  obtain ⟨P', hP'⟩ := addParams_ok f.params h
    { description := pyOrDoc f.doc moduleDoc, posArgs := [], optArgs := [],
      entryFn := f }
  exact ⟨P', by rw [decoratorCall]; simp only [setEntrypointP]; rw [hP']⟩

/-- Claim C10, witness: decorating a concrete well-formed entrypoint
returns that same function object with its decoration. -/
theorem cli_C10_witness :
    ∃ P, decoratorCall
        { name := "entrypoint", doc := Option.some "docs", params := [⟨"a", .posOnly, Option.none, .plain .int⟩],
          isCoro := false, impl := fun args _ => .tuple args }
        Option.none =
      { cliParser := Option.some P,
        buildResult := .ok
          ({ name := "entrypoint", doc := Option.some "docs",
             params := [⟨"a", .posOnly, Option.none, .plain .int⟩],
             isCoro := false, impl := fun args _ => .tuple args }, P) } :=
  cli_C10 _ _ (by decide)

/-- Digits-to-number accumulation for integer literal tokens. -/
def digitsToNat (cs : List Char) : Nat :=
  cs.foldl (fun n c => n * 10 + (c.toNat - 48)) 0

/-- A simple float literal token: a nonempty digit run, a dot, a nonempty
digit run. -/
def isFloatTok (cs : List Char) : Bool :=
  match cs.span (fun c => c.isDigit) with
  | (ds, '.' :: fs) => !ds.isEmpty && !fs.isEmpty && fs.all Char.isDigit
  | _ => false

/-- Modelled from the spec: the literal-evaluation service
(`ast.literal_eval`) at the boundary the coercion pipeline uses it —
"raw flag values are parsed as literals when the declared type is not
exactly the primitive string type".  The model covers the scalar literal
forms (booleans, `None`, integers, simple floats, quoted strings) and
rejects anything else with `ValueError`; container literals are outside
what the claims exercise. -/
def literalEval (s : String) : Except String Value :=
  if s = "True" then .ok (.bool true)
  else if s = "False" then .ok (.bool false)
  else if s = "None" then .ok Value.none
  else
    let cs := s.toList
    let (neg, body) :=
      match cs with
      | '-' :: rest => (true, rest)
      | _ => (false, cs)
    if !body.isEmpty && body.all Char.isDigit then
      .ok (.int (if neg then -(Int.ofNat (digitsToNat body))
                 else Int.ofNat (digitsToNat body)))
    else if isFloatTok body then .ok (.float s)
    else
      match cs with
      | c :: rest =>
        if (c = '\x27' || c = '"') && !rest.isEmpty && rest.getLast? = some c then
          .ok (.str (String.mk rest.dropLast))
        else .error ("ValueError: malformed literal " ++ s)
      | [] => .error "ValueError: malformed literal"

/-- The converter lambda installed as `flag.type` (line 259): a raw token
is taken verbatim when the unwrapped annotation is exactly `str`, otherwise
it is literal-evaluated; the result is passed to `_set_t` against the
annotation (against `inspect.Parameter.empty`, treated by `_set_t` as a
non-`_types` target, when the parameter is unannotated). -/
def convertTok (a : Annot) (tok : String) : Except String Value :=
  match a with
  | .plain Ty.str => set_t (.str tok) Ty.str
  | .plain t0 => do
    let v ← literalEval tok
    set_t v t0
  | .annotated Ty.str _ => set_t (.str tok) Ty.str
  | .annotated t0 _ => do
    let v ← literalEval tok
    set_t v t0
  | .empty => do
    let v ← literalEval tok
    set_t v (.custom "inspect.Parameter.empty")

/-- The namespace attribute name argparse stores a flag under: an
option string loses its leading dashes and has its hyphens restored to
underscores; a positional keeps its name. -/
def destOf (fl : CliFlag) : String :=
  if isOptionName fl.flagName then
    String.mk ((fl.flagName.toList.drop 2).map (fun c => if c = '-' then '_' else c))
  else fl.flagName

/-- Finding the optional argument registered under an option token. -/
def findOpt (opts : List CliFlag) (tok : String) : Option CliFlag :=
  opts.find? (fun fl => fl.flagName == tok)

/-- Modelled from the spec: the external flag-parsing collaborator
(argparse) at its boundary — it "tokenizes argv, matches flags, and calls
back with string defaults".  Tokens are scanned left to right: an
option-style token must match a registered optional (an unmatched one
aborts with the unrecognized-arguments error), consuming one following
value token (a flag with `nargs=OPTIONAL` may omit it and stores `None`);
any other token is bound to the next pending positional.  Each consumed
value goes through the flag's converter.  At end of input, a missing
required argument is an error; absent optionals receive their stored
defaults. -/
def parseTokens (posRem opts : List CliFlag) (toks : List String)
    (acc : List (String × Value)) : Except String (List (String × Value)) :=
  match toks with
  | [] =>
    if !(posRem.filter (fun fl => !fl.nargsOpt)).isEmpty then
      .error "error: the following arguments are required"
    else if !(opts.filter (fun fl =>
        fl.required && !(acc.any (fun p => p.1 == destOf fl)))).isEmpty then
      .error "error: the following arguments are required"
    else
      .ok (acc
        ++ (posRem.map (fun fl => (destOf fl, fl.dflt.getD Value.none)))
        ++ ((opts.filter (fun fl => !(acc.any (fun p => p.1 == destOf fl)))).map
              (fun fl => (destOf fl, fl.dflt.getD Value.none))))
  | tok :: rest =>
    if isOptionName tok then
      match findOpt opts tok with
      | Option.none => .error ("error: unrecognized arguments: " ++ tok)
      | Option.some fl =>
        match rest with
        | v :: rest2 =>
          if isOptionName v && fl.nargsOpt then
            parseTokens posRem opts (v :: rest2) (acc ++ [(destOf fl, Value.none)])
          else do
            let w ← convertTok fl.convAnnot v
            parseTokens posRem opts rest2 (acc ++ [(destOf fl, w)])
        | [] =>
          if fl.nargsOpt then .ok (acc ++ [(destOf fl, Value.none)])
          else .error ("error: argument " ++ fl.flagName ++ ": expected one argument")
    else
      match posRem with
      | [] => .error ("error: unrecognized arguments: " ++ tok)
      | pf :: posRest => do
        let w ← convertTok pf.convAnnot tok
        parseTokens posRest opts rest (acc ++ [(destOf pf, w)])
  termination_by toks.length

/-- `_Decoration.run` (lines 68-99) for a single-node parser: parse the
argument tokens against the parser's registered arguments, then dispatch
to the parser's registered entrypoint with the parsed mapping. -/
def runModel (P : ArgParser) (toks : List String) : RunOutcome :=
  match parseTokens P.posArgs P.optArgs toks [] with
  | .error e => { calls := [], result := .error e }
  | .ok parsed => dispatch P.entryFn parsed

/-- The docstring example entrypoint
`entrypoint(a: int, /, b: str, c: bool = True, *, d: float)` of claim C2. -/
def entrypointC2 : FuncObj :=
  { name := "entrypoint", doc := Option.none,
    params := [⟨"a", .posOnly, Option.none, .plain .int⟩,
               ⟨"b", .posOrKw, Option.none, .plain .str⟩,
               ⟨"c", .posOrKw, Option.some (.bool true), .plain .bool⟩,
               ⟨"d", .kwOnly, Option.none, .plain .float⟩],
    isCoro := false, impl := fun _ _ => Value.none }

/-- The parser `_Decorator.__call__` builds for `entrypointC2`: positionals
`a` and `b`, optionals `--c` (default `True`, optional value) and `--d`
(required).  No `--no-c` option string is ever registered. -/
def parserC2 : ArgParser :=
  { description := Option.none,
    posArgs := [⟨"a", true, Option.none, false, "", .plain .int⟩,
                ⟨"b", true, Option.none, false, "", .plain .str⟩],
    optArgs := [⟨"--c", false, Option.some (.bool true), true, "Default: True", .plain .bool⟩,
                ⟨"--d", true, Option.none, false, "", .plain .float⟩],
    entryFn := entrypointC2 }

/-- Claim C2: the build registers only `--c` and `--d` as option strings,
so invoking `run` with `["1", "hi", "--no-c", "--d", "0.5"]` does not call
`entrypoint(1, "hi", c=False, d=0.5)`: the parser aborts on the
unrecognized `--no-c` token and the entrypoint is never invoked — even
though the module docstring advertises exactly this `--no-c` usage. -/
theorem cli_C2_bug :
    decoratorCall entrypointC2 Option.none =
      { cliParser := Option.some parserC2,
        buildResult := .ok (entrypointC2, parserC2) } ∧
    runModel parserC2 ["1", "hi", "--no-c", "--d", "0.5"] =
      { calls := [], result := .error "error: unrecognized arguments: --no-c" } := by
  constructor
  · rfl
  · have hc1 : convertTok (Annot.plain Ty.int) "1" = .ok (.int 1) := by
      show set_t (.int 1) Ty.int = .ok (.int 1)
      rw [set_t.eq_def]
    have hc2 : convertTok (Annot.plain Ty.str) "hi" = .ok (.str "hi") := by
      show set_t (.str "hi") Ty.str = .ok (.str "hi")
      rw [set_t.eq_def]
    have h1 : isOptionName "1" = false := rfl
    have h2 : isOptionName "hi" = false := rfl
    have h3 : isOptionName "--no-c" = true := rfl
    have h4 : findOpt
        [⟨"--c", false, Option.some (.bool true), true, "Default: True", .plain .bool⟩,
         ⟨"--d", true, Option.none, false, "", .plain .float⟩] "--no-c" =
        Option.none := rfl
    simp only [runModel, parserC2, parseTokens, h1, h2, h3, h4, hc1, hc2,
      exceptBindOk, Bool.false_eq_true, if_false, if_true, List.nil_append]
    rfl

/-- Whether a string's first character is an underscore (the hidden
subcommand convention `name.startswith` at line 288). -/
def underscoreFirst (s : String) : Bool :=
  match s.toList with
  | c :: _ => c = '_'
  | [] => false

/-- One submodule as the package walk observes it: its short name, its
docstring, and the same-named entrypoint function found in it via
`getattr` (or nothing). -/
structure SubModuleInfo where
  sname : String
  doc : Option String
  entryFn : Option FuncObj

/-- The decorated entrypoint's package: its docstring and the submodules
`pkgutil.iter_modules` yields. -/
structure PkgModule where
  doc : Option String
  subs : List SubModuleInfo

/-- One subparser node added by `subparsers.add_parser`: its subcommand
name, the `description` passed at construction (shown on the node's own
help page), and the `help` argument (the summary line in the parent's
subcommand listing; absent means the node is omitted from the listing). -/
structure SubNode where
  nodeName : String
  description : Option String
  helpLine : Option String

/-- The `add_parser` call for one submodule (lines 288-291): the node's
description is the submodule's docstring (only); hidden names (leading
underscore) get no `help` entry, visible names get an empty one. -/
def buildSubNode (sm : SubModuleInfo) : SubNode :=
  if underscoreFirst sm.sname then
    { nodeName := sm.sname, description := sm.doc, helpLine := Option.none }
  else
    { nodeName := sm.sname, description := sm.doc, helpLine := Option.some "" }

/-- The node texts produced by one package level of the build walk. -/
structure PackageBuild where
  rootDescription : Option String
  subNodes : List SubNode
  dotNode : SubNode

/-- The node-text derivation of `_Decorator.__call__` for a decorated
package entrypoint (lines 272 and 283-297): the root parser's description
is `entrypoint.__doc__ or module.__doc__`; each submodule's subparser gets
`description=sub_module.__doc__`; the synthetic `.` subparser for the
package's own entrypoint gets no description and
`help=entrypoint.__doc__ or module.__doc__`. -/
def buildPackage (f : FuncObj) (m : PkgModule) : PackageBuild :=
  { rootDescription := pyOrDoc f.doc m.doc,
    subNodes := m.subs.map buildSubNode,
    dotNode := { nodeName := ".", description := Option.none,
                 helpLine := pyOrDoc f.doc m.doc } }

/-- The node help text the claim (and the spec) prescribe: the bound
entrypoint's documentation string, falling back to the module's
documentation string.  Stated from the spec's words, for comparison with
what the code computes. -/
def specNodeDoc (entryDoc moduleDoc : Option String) : Option String :=
  pyOrDoc entryDoc moduleDoc

/-- Claim C8, counterexample: a submodule whose module docstring is `"M"`
and whose bound entrypoint's docstring is `"E"` gets node description
`"M"` — the submodule's docstring only — while the claimed rule prescribes
`"E"` (entrypoint docstring first, module docstring as fallback). -/
theorem cli_C8_counterexample :
    (buildPackage
        { name := "entrypoint", doc := Option.none, params := [],
          isCoro := false, impl := fun _ _ => Value.none }
        { doc := Option.some "root",
          subs := [{ sname := "sub", doc := Option.some "M",
                     entryFn := Option.some
                       { name := "entrypoint", doc := Option.some "E", params := [],
                         isCoro := false, impl := fun _ _ => Value.none } }] }).subNodes =
      [{ nodeName := "sub", description := Option.some "M",
         helpLine := Option.some "" }] ∧
    specNodeDoc (Option.some "E") (Option.some "M") = Option.some "E" ∧
    (Option.some "M" : Option String) ≠ Option.some "E" := by
  refine ⟨rfl, rfl, ?_⟩
  simp

/-- Claim C8, amended: only the root node's description follows the
entrypoint-docstring-with-module-fallback rule.  Every submodule node's
description is taken from the submodule's docstring alone — its bound
entrypoint's docstring is never consulted — and the synthetic `.` node has
no description of its own, only a listing line that follows the fallback
rule. -/
theorem cli_C8_amended (f : FuncObj) (m : PkgModule) :
    (buildPackage f m).rootDescription = specNodeDoc f.doc m.doc ∧
    ((buildPackage f m).subNodes.map (fun nd => nd.description) =
      m.subs.map (fun sm => sm.doc)) ∧
    (buildPackage f m).dotNode.description = Option.none ∧
    (buildPackage f m).dotNode.helpLine = specNodeDoc f.doc m.doc := by
  refine ⟨rfl, ?_, rfl, rfl⟩
  simp only [buildPackage, List.map_map]
  refine List.map_congr_left ?_
  intro sm _
  simp only [Function.comp]
  rw [buildSubNode]
  by_cases h : underscoreFirst sm.sname <;> simp [h]
